import Mathlib

/-!
A shallow embedding of the grounding pipeline of the digital-twin
question-answering system (retrieval layer, evidence-extraction layer,
verifier/refusal gate, and the orchestrator), together with proofs about
the testable properties of its specification.

External model calls (embedding, generation, entailment, JSON decoding)
are modelled as oracle parameters: a call that can fail or return
arbitrary text is an `Option String` (with `none` for a raised
exception), and the structured-output decoder is a function into a
small JSON value type.  Python strings are modelled as `String`
(lists of characters), Python `int` as `Int`, floating point relevance
scores as `ℚ` (only their ordering matters to the claims), and
`datetime` timestamps as `Int` (only their linear order is used).
-/

/-- Python ASCII whitespace as used by `str.split` / `str.strip`:
space, tab, newline, carriage return, vertical tab, form feed. -/
def isPyWs (c : Char) : Bool :=
  c == ' ' || c == '\t' || c == '\n' || c == '\r' || c == '\x0b' || c == '\x0c'

/-- Python `str.lower` (the strings in this program are ASCII). -/
def lcase (s : String) : String :=
  ⟨s.toList.map Char.toLower⟩

/-- `listStarts pat l` holds when `pat` is an initial run of `l`. -/
def listStarts : List Char → List Char → Bool
  | [], _ => true
  | _ :: _, [] => false
  | a :: as, b :: bs => a == b && listStarts as bs

/-- `containsSub hay pat`: the Python substring test `pat in hay`. -/
def containsSub : List Char → List Char → Bool
  | [], pat => listStarts pat []
  | h :: t, pat => listStarts pat (h :: t) || containsSub t pat

/-- `substrOf needle hay`: the Python expression `needle in hay` on strings. -/
def substrOf (needle hay : String) : Bool :=
  containsSub hay.toList needle.toList

/-- Python `str.strip()` on a list of characters: drop leading and
trailing whitespace. -/
def pyStripL (l : List Char) : List Char :=
  ((l.dropWhile isPyWs).reverse.dropWhile isPyWs).reverse

/-- Python `str.strip()`. -/
def pyStrip (s : String) : String :=
  ⟨pyStripL s.toList⟩

/-- Worker for Python `str.split()` (split on whitespace runs, dropping
empty fields); `acc` is the current word, reversed. -/
def splitWsAux : List Char → List Char → List (List Char)
  | [], acc => if acc.isEmpty then [] else [acc.reverse]
  | c :: rest, acc =>
    if isPyWs c then
      if acc.isEmpty then splitWsAux rest [] else acc.reverse :: splitWsAux rest []
    else
      splitWsAux rest (c :: acc)

/-- Python `str.split()` with no separator argument. -/
def pySplitL (l : List Char) : List (List Char) :=
  splitWsAux l []

/-- Whitespace normalization as written in the source:
`' '.join(text.split())`. -/
def normWs (s : String) : String :=
  String.intercalate " " ((pySplitL s.toList).map (fun w => (⟨w⟩ : String)))

/-! ### Character classes of the source's regular expressions -/

def isAsciiUpper (c : Char) : Bool := 'A' ≤ c && c ≤ 'Z'

def isAsciiLower (c : Char) : Bool := 'a' ≤ c && c ≤ 'z'

def isAsciiDigit (c : Char) : Bool := '0' ≤ c && c ≤ '9'

def isAsciiAlpha (c : Char) : Bool := isAsciiUpper c || isAsciiLower c

/-- `[A-Za-z0-9]` (used by the key-shaped patterns; under `re.IGNORECASE`
this class is unchanged). -/
def isAlnumChar (c : Char) : Bool := isAsciiAlpha c || isAsciiDigit c

/-- `\w` of Python `re` restricted to ASCII, used for `\b` boundaries. -/
def isWordChar (c : Char) : Bool := isAsciiAlpha c || isAsciiDigit c || c == '_'

/-- `[A-Za-z0-9._%+-]`, the local part class of the email pattern. -/
def isLocalChar (c : Char) : Bool :=
  isAlnumChar c || c == '.' || c == '_' || c == '%' || c == '+' || c == '-'

/-- `[A-Za-z0-9.-]`, the domain class of the email pattern. -/
def isDomChar (c : Char) : Bool := isAlnumChar c || c == '.' || c == '-'

/-- `[A-Z|a-z]`, the top-level-domain class of the email pattern (the
source's class literally contains `|`). -/
def isTldChar (c : Char) : Bool := isAsciiAlpha c || c == '|'

/-- A `\b` word boundary between the previous character (`none` at the
start of the string) and the current one. -/
def wordBoundary (prev : Option Char) (c : Char) : Bool :=
  (prev.elim false isWordChar) != isWordChar c

/-- A `\b` word boundary after the last matched character, `nxt` being
the following character (`none` at the end of the string). -/
def endBoundary (lastc : Char) (nxt : Option Char) : Bool :=
  isWordChar lastc != (nxt.elim false isWordChar)

/-- Backtracking of the greedy `[A-Z|a-z]{2,}` at the end of the email
pattern: `t` is the maximal run of TLD-class characters, `nxt` the
character after that run; try lengths from the argument down to 2 until
the final `\b` holds. -/
def tldBacktrack (t : List Char) (nxt : Option Char) : Nat → Option Nat
  | 0 => none
  | 1 => none
  | L + 2 =>
    if L + 2 ≤ t.length then
      let lastc := t.getD (L + 1) ' '
      let nextc : Option Char := if L + 2 < t.length then some (t.getD (L + 2) ' ') else nxt
      if endBoundary lastc nextc then some (L + 2)
      else tldBacktrack t nxt (L + 1)
    else tldBacktrack t nxt (L + 1)

/-- Backtracking of the greedy `[A-Za-z0-9.-]+\.` of the email pattern:
`dom` is the maximal run of domain-class characters after the `@` and
`r3` what follows it.  Try the split point (number of characters before
the `\.`) from the argument down to 1; at each split whose character is
a dot, try to match the TLD part.  Returns the split point and the
matched TLD length. -/
def domBacktrack (dom r3 : List Char) : Nat → Option (Nat × Nat)
  | 0 => none
  | k + 1 =>
    if k + 1 < dom.length ∧ dom.getD (k + 1) ' ' = '.' then
      let src := dom.drop (k + 2) ++ r3
      let t := src.takeWhile isTldChar
      let nxt : Option Char := (src.drop t.length).head?
      match tldBacktrack t nxt t.length with
      | some L => some (k + 1, L)
      | none => domBacktrack dom r3 k
    else domBacktrack dom r3 k

/-- Attempt to match the email pattern
`\b[A-Za-z0-9._%+-]+@[A-Za-z0-9.-]+\.[A-Z|a-z]{2,}\b` at the head of
`l`, `prev` being the character just before `l`.  The local part needs
no backtracking because `@` is not in its class.  Returns the matched
characters and the rest of the string. -/
def matchEmailAt (prev : Option Char) (l : List Char) : Option (List Char × List Char) :=
  match l with
  | [] => none
  | c :: _ =>
    if !isLocalChar c then none
    else if !wordBoundary prev c then none
    else
      let lp := l.takeWhile isLocalChar
      match l.dropWhile isLocalChar with
      | [] => none
      | d :: r2 =>
        if d = '@' then
          let dom := r2.takeWhile isDomChar
          let r3 := r2.dropWhile isDomChar
          match domBacktrack dom r3 (dom.length - 1) with
          | some (k, tl) =>
            let tldsrc := dom.drop (k + 1) ++ r3
            some (lp ++ '@' :: (dom.take k ++ '.' :: tldsrc.take tl), tldsrc.drop tl)
          | none => none
        else none

/-- Scanner of `re.sub`: walk the string left to right, replacing each
non-overlapping leftmost match by `[redacted]` and resuming after the
match (later `\b` checks look at the original characters).  Fuel is the
remaining number of positions, enough because every step consumes at
least one character. -/
def redactAux : Nat → Option Char → List Char → List Char
  | 0, _, l => l
  | _ + 1, _, [] => []
  | fuel + 1, prev, c :: rest =>
    match matchEmailAt prev (c :: rest) with
    | some (matched, after) => "[redacted]".toList ++ redactAux fuel matched.getLast? after
    | none => c :: redactAux fuel (some c) rest

/-- `re.sub(email_pattern, '[redacted]', s)` as in the citation
assembly of the verifier gate. -/
def redactEmails (s : String) : String :=
  ⟨redactAux s.toList.length none s.toList⟩

/-! ### The sensitive-information check of the verifier gate -/

/-- Existence of a match of `[:\s]*[^\s]+` at the head of `rest`: the
backtracking engine finds one exactly when some non-whitespace
character occurs in `rest` (every character before the first
non-whitespace one is whitespace, hence in `[:\s]`). -/
def keyTail (rest : List Char) : Bool :=
  rest.any (fun c => !isPyWs c)

/-- Match of `sk-[A-Za-z0-9]{20,}` at the head of the (lowercased) text. -/
def skKeyAt (s : List Char) : Bool :=
  listStarts "sk-".toList s && 20 ≤ ((s.drop 3).takeWhile isAlnumChar).length

/-- Match of `AKIA[0-9A-Z]{16}` (case-insensitive) at the head of the
lowercased text. -/
def akiaKeyAt (s : List Char) : Bool :=
  listStarts "akia".toList s && 16 ≤ ((s.drop 4).takeWhile isAlnumChar).length

/-- Match of `password[:\s]*[^\s]+` at the head of the lowercased text. -/
def passwordAt (s : List Char) : Bool :=
  listStarts "password".toList s && keyTail (s.drop 8)

/-- Match of `api[_-]?key[:\s]*[^\s]+` at the head of the lowercased text. -/
def apiKeyAt (s : List Char) : Bool :=
  (listStarts "apikey".toList s && keyTail (s.drop 6)) ||
  (listStarts "api_key".toList s && keyTail (s.drop 7)) ||
  (listStarts "api-key".toList s && keyTail (s.drop 7))

/-- Match of `secret[:\s]*[^\s]+` at the head of the lowercased text. -/
def secretAt (s : List Char) : Bool :=
  listStarts "secret".toList s && keyTail (s.drop 6)

/-- Match of `token[:\s]*[^\s]+` at the head of the lowercased text. -/
def tokenAt (s : List Char) : Bool :=
  listStarts "token".toList s && keyTail (s.drop 5)

/-- `re.search` over all start positions (the patterns above never
match the empty string, so checking every suffix is exact). -/
def anyPos (p : List Char → Bool) : List Char → Bool
  | [] => p []
  | c :: rest => p (c :: rest) || anyPos p rest

/-- Some pattern of `VerifierGate.sensitive_patterns` matches the text
(given lowercased, which is equivalent to `re.IGNORECASE`). -/
def sensitivePatternsHit (tl : List Char) : Bool :=
  anyPos (fun s => skKeyAt s || akiaKeyAt s || passwordAt s || apiKeyAt s || secretAt s || tokenAt s) tl

/-- The keyword list of `VerifierGate._contains_sensitive_info`. -/
def sensitiveKeywords : List String :=
  ["password", "passwd", "pwd",
   "api_key", "api key", "apikey",
   "secret", "token",
   "credential", "credentials", "creds", "cred",
   "aws access", "aws secret", "aws key",
   "account id", "account number",
   "private key", "ssh key"]

/-- `VerifierGate._contains_sensitive_info(text, source_file)`: empty
text is never sensitive, anything from `identity.md` is allowed, else
the regex patterns (case-insensitive) and the keyword list decide. -/
def containsSensitiveInfo (text : String) (source_file : String) : Bool :=
  if text == "" then false
  else if substrOf "identity.md" source_file then false
  else
    let text_lower := lcase text
    sensitivePatternsHit text_lower.toList ||
      sensitiveKeywords.any (fun k => substrOf k text_lower)

/-! ### Data model -/

/-- A raw-memory chunk as produced by ingestion (layer 1): only the
fields the grounding pipeline reads are modelled; `timestamp` is an
abstract instant (`datetime` is only ever compared). -/
structure Chunk where
  id : String
  file : String
  text : String
  timestamp : Option Int
deriving DecidableEq

/-- A retrieval candidate `{"chunk": ..., "score": ...}`. -/
structure RetrievedChunk where
  chunk : Chunk
  score : ℚ
deriving DecidableEq

/-- A validated evidence item returned by the extraction layer. -/
structure EvidenceItem where
  quote : String
  chunk_id : String
  file : String
  timestamp : Option Int
deriving DecidableEq

/-- The output dictionary of `EvidenceExtraction.extract`
(`raw_extraction` is absent from the empty-chunks early return). -/
structure ExtractResult where
  evidence : List EvidenceItem
  has_evidence : Bool
  raw_extraction : Option String
deriving DecidableEq

/-- A citation of the final Verdict. -/
structure Citation where
  text : String
  source : String
  chunk_id : String
  timestamp : Option Int
deriving DecidableEq

/-- The Verdict dictionary returned by `VerifierGate.generate_answer`. -/
structure Verdict where
  answer : String
  confidence : String
  reasoning : String
  citations : List Citation
deriving DecidableEq

/-- A decoded JSON value (`json.loads` result).  Numbers of the
responses relevant here are integers. -/
inductive JVal where
  | jnull
  | jbool (b : Bool)
  | jint (n : Int)
  | jstr (s : String)
  | jlist (xs : List JVal)
  | jdict (kvs : List (String × JVal))

/-- Outcome of `json.loads` on the extraction response, supplied as an
oracle: either a `JSONDecodeError` or a decoded value. -/
inductive ParseOutcome where
  | parseFail
  | parsed (v : JVal)

namespace EvidenceExtraction

/-- Result of processing one item of the decoded `evidence` array:
keep a validated item, skip it (`continue`), raise a `TypeError` /
`KeyError` (caught by the `except` around the loop, which abandons the
rest of the loop but keeps what was already appended), or raise an
uncaught error such as `AttributeError` (which propagates out of
`extract`). -/
inductive StepRes where
  | skip
  | keep (e : EvidenceItem)
  | caught
  | crash

/-- Validation of one item once `chunk_index` is a usable index `n`
(already bounds-checked): length check then verbatim check against the
whitespace-normalized chunk text. -/
def validateQuote (chunks : List RetrievedChunk) (minLen : Nat) (quote : String) (n : Nat) : StepRes :=
  if quote.length < minLen then .skip
  else
    let chunk := (chunks.getD n ⟨⟨"", "", "", none⟩, 0⟩).chunk
    if substrOf (normWs quote) (normWs chunk.text) then
      .keep ⟨quote, chunk.id, chunk.file, chunk.timestamp⟩
    else .skip

/-- Processing of one decoded evidence item, mirroring the loop body of
`EvidenceExtraction.extract`: `item.get("chunk_index")`,
`item.get("quote", "").strip()`, the index checks (a non-integer,
non-boolean, non-null index raises a caught `TypeError` on `< 0`), the
length check, and the verbatim check.  A non-dict item or a non-string
quote raises an uncaught `AttributeError`. -/
def processItem (chunks : List RetrievedChunk) (minLen : Nat) (item : JVal) : StepRes :=
  match item with
  | .jdict kvs =>
    match (kvs.lookup "quote").getD (.jstr "") with
    | .jstr q0 =>
      match (kvs.lookup "chunk_index").getD .jnull with
      | .jnull => .skip
      | .jint n =>
        if n < 0 ∨ (chunks.length : Int) ≤ n then .skip
        else validateQuote chunks minLen (pyStrip q0) n.toNat
      | .jbool b =>
        if (chunks.length : Int) ≤ (b.toNat : Int) then .skip
        else validateQuote chunks minLen (pyStrip q0) b.toNat
      | _ => .caught
    | _ => .crash
  | _ => .crash

/-- The extraction loop: `evidence_items` starts empty and grows with
each kept item; a caught exception ends the loop keeping the items
collected so far; an uncaught one aborts `extract` (modelled `none`). -/
def processItems (chunks : List RetrievedChunk) (minLen : Nat) : List JVal → Option (List EvidenceItem)
  | [] => some []
  | item :: rest =>
    match processItem chunks minLen item with
    | .keep e => (processItems chunks minLen rest).map (fun es => e :: es)
    | .skip => processItems chunks minLen rest
    | .caught => some []
    | .crash => none

/-- Result of the Python `for item in data.get("evidence", [])` header:
iterating a list yields its members, a string its one-character
substrings, a dict its keys; `int`, `bool` and `None` raise a caught
`TypeError`. -/
inductive IterRes where
  | items (xs : List JVal)
  | typeErr

/-- See `IterRes`. -/
def iterItems : JVal → IterRes
  | .jlist xs => .items xs
  | .jstr s => .items (s.toList.map (fun c => .jstr (⟨[c]⟩ : String)))
  | .jdict kvs => .items (kvs.map (fun kv => JVal.jstr kv.1))
  | _ => .typeErr

/-- `EvidenceExtraction.extract(question, retrieved_chunks, answer_mode)`.
The generation call is the oracle `genResult` (`none` for an exception
or a response without `output_text`, in the source replaced by the
default `'{"evidence":[]}'`), and `parseJson` is `json.loads`.  The
question only feeds the prompt, so it does not appear.  `none` models
an uncaught exception escaping `extract`. -/
def extract (retrieved_chunks : List RetrievedChunk) (genResult : Option String)
    (parseJson : String → ParseOutcome) (answer_mode : String) : Option ExtractResult :=
  if retrieved_chunks.isEmpty then some ⟨[], false, none⟩
  else
    let extraction_text := genResult.getD "\x7b\"evidence\":[]\x7d"
    let min_quote_length : Nat := if answer_mode == "SUMMARY_MODE" then 5 else 8
    let evidence_items : Option (List EvidenceItem) :=
      match parseJson (pyStrip extraction_text) with
      | .parseFail => some []
      | .parsed v =>
        match v with
        | .jdict kvs =>
          match iterItems ((kvs.lookup "evidence").getD (.jlist [])) with
          | .typeErr => some []
          | .items xs => processItems retrieved_chunks min_quote_length xs
        | _ => none
    match evidence_items with
    | none => none
    | some es => some ⟨es, decide (0 < es.length), some extraction_text⟩

end EvidenceExtraction

namespace VerifierGate

/-- `VerifierGate._entailment_state(question, evidence_quotes)`: the
empty-quotes guard is code; everything after (the model call, the JSON
extraction with its `unknown` defaults on failure) is the oracle, whose
value the source clamps to one of `yes`, `no`, `unknown`. -/
def entailmentResult (entOracle : String) (evidence_quotes : List String) : String :=
  if evidence_quotes.isEmpty then "no" else entOracle

/-- The answer-generation call of `generate_answer`: `genResult` is the
oracle (`none` for an exception or a missing `output_text`, which the
source replaces by the refusal default); the result is stripped and an
empty result again becomes the refusal default. -/
def gateGenerate (genResult : Option String) : String :=
  let t := pyStrip (genResult.getD "I do not see this in your data.")
  if t == "" then "I do not see this in your data." else t

/-- The quote-only selection loop of the `unknown` entailment branch:
walk the evidence in order, keeping a quote line for each not-yet-seen
chunk id while fewer than 3 lines are collected.  Returns the set of
seen chunk ids and the quote lines. -/
def quoteOnlyFold : List EvidenceItem → List String → List String → List String × List String
  | [], seen, lines => (seen, lines)
  | ev :: rest, seen, lines =>
    if !seen.contains ev.chunk_id && lines.length < 3 then
      quoteOnlyFold rest (seen ++ [ev.chunk_id]) (lines ++ ["- " ++ ev.quote])
    else
      quoteOnlyFold rest seen lines

/-- See `quoteOnlyFold` (started from empty accumulators). -/
def quoteOnlySel (evs : List EvidenceItem) : List String × List String :=
  quoteOnlyFold evs [] []

/-- The `is_valid` filter of the citation assembly: non-empty, longer
than 5 characters, not a placeholder, and not made of underscores,
dots, dashes and whitespace only. -/
def isValidQuote (q : String) : Bool :=
  !(q == "") && decide (5 < q.length) &&
  !(["__", "___", "...", "----", "N/A", "n/a"].contains q) &&
  !(pyStrip (⟨q.toList.filter (fun c => !(c == '_') && !(c == '.') && !(c == '-'))⟩ : String) == "")

/-- Citation assembly for one evidence item: strip the quote, validate
it, redact email-like substrings unless the item comes from
`identity.md`, and drop it if the redacted text still triggers the
sensitive-information check (which exempts `identity.md`). -/
def buildCitation (ev : EvidenceItem) : Option Citation :=
  let quote_text := pyStrip ev.quote
  let source_file := ev.file
  if isValidQuote quote_text then
    let qt := if substrOf "identity.md" source_file then quote_text
              else redactEmails quote_text
    if containsSensitiveInfo qt source_file then none
    else some ⟨qt, source_file, ev.chunk_id, ev.timestamp⟩
  else none

/-- The citation-assembly loop over all evidence items. -/
def buildCitations (evs : List EvidenceItem) : List Citation :=
  evs.filterMap buildCitation

/-- The shared tail of `generate_answer` from answer generation on:
the generation call, the post-generation sensitive-content scan (with
the `identity.md` exemption looked up in the evidence source files),
the refusal test on the answer text, citation assembly and confidence
assignment.  `boost` is `summary_confidence_boost` (set only in
summary mode, and consulted through Python truthiness). -/
def finalPhase (evidence : ExtractResult) (boost : Option String) (genResult : Option String) : Verdict :=
  let answer_text := gateGenerate genResult
  let is_from_identity :=
    (evidence.evidence.map (fun e => e.file)).any (fun src => substrOf "identity.md" src)
  if !is_from_identity && containsSensitiveInfo answer_text "" then
    ⟨"I cannot share that because it contains sensitive information.", "none",
     "Answer blocked due to sensitive information detection.", []⟩
  else
    let is_refusal := substrOf "do not see" (lcase answer_text)
    let citations := buildCitations evidence.evidence
    let confidence :=
      if is_refusal then "none"
      else
        match boost with
        | some b => if b == "" then (if 2 ≤ citations.length then "high" else "medium") else b
        | none => if 2 ≤ citations.length then "high" else "medium"
    ⟨answer_text, confidence,
     "Based on " ++ toString citations.length ++ " valid citation(s) from retrieved context.",
     citations⟩

/-- `VerifierGate.generate_answer(question, evidence, retrieved_chunks,
answer_mode)`.  `retrieved_chunks` is unused by the source body and
omitted.  `entOracle` stands for the model-and-parsing part of the
entailment check and `genResult` for the answer generation call. -/
def generate_answer (question : String) (evidence : ExtractResult) (answer_mode : String)
    (entOracle : String) (genResult : Option String) : Verdict :=
  if containsSensitiveInfo question "" then
    ⟨"I cannot share sensitive information like credentials, passwords, or API keys.", "none",
     "Question blocked due to requesting sensitive information.", []⟩
  else if !evidence.has_evidence || evidence.evidence.length == 0 then
    ⟨"I do not see this in your data.", "none",
     "No supporting evidence found in the data.", []⟩
  else if answer_mode == "SUMMARY_MODE" then
    let unique_chunks := (evidence.evidence.map (fun e => e.chunk_id)).dedup
    if unique_chunks.length == 0 then
      ⟨"I do not see this in your data.", "none", "No evidence found for summary.", []⟩
    else
      finalPhase evidence (some (if 2 ≤ unique_chunks.length then "high" else "medium")) genResult
  else
    let evidence_quotes := evidence.evidence.map (fun e => e.quote)
    let entailment := entailmentResult entOracle evidence_quotes
    if entailment == "no" then
      ⟨"I do not see this in your data.", "none",
       "Evidence does not support the question.", []⟩
    else if entailment == "unknown" then
      let sel := quoteOnlySel evidence.evidence
      if !sel.2.isEmpty then
        ⟨"From my data:\n" ++ String.intercalate "\n" sel.2, "medium",
         "Entailment unclear, returning quote-only answer.",
         (evidence.evidence.filter (fun ev => sel.1.contains ev.chunk_id)).map
           (fun ev => ⟨ev.quote, ev.file, ev.chunk_id, ev.timestamp⟩)⟩
      else
        ⟨"I do not see this in your data.", "none",
         "Cannot verify if evidence supports the question.", []⟩
    else
      finalPhase evidence none genResult

end VerifierGate

namespace Retrieval

/-- The in-memory chunk store behind `RawMemory` (loaded once by
ingestion, which is outside the grounding pipeline). -/
structure RawMemoryI where
  raw_chunks : List Chunk

/-- `RawMemory.get_chunk_by_id`: first chunk with the given id. -/
def get_chunk_by_id (m : RawMemoryI) (chunk_id : String) : Option Chunk :=
  m.raw_chunks.find? (fun c => c.id == chunk_id)

/-- `RawMemory.get_chunks_by_time_range`: chunks with a (truthy)
timestamp inside the closed range. -/
def get_chunks_by_time_range (m : RawMemoryI) (start stop : Int) : List Chunk :=
  m.raw_chunks.filter (fun c =>
    match c.timestamp with
    | some ts => decide (start ≤ ts) && decide (ts ≤ stop)
    | none => false)

/-- The environment of one `Retrieval.retrieve` call: the raw store,
the coarse-index answers (`find_relevant_weeks` composed with
`get_chunk_ids_for_weeks`, supplied as the resulting week labels and
chunk ids), and the embedding-service oracles: whether the query
embedding call succeeded, whether the batch chunk-embedding call
succeeded (it returns either every candidate or, on failure, none of
them), and the cosine similarity of each chunk with the query. -/
structure Env where
  raw : RawMemoryI
  relevantWeekLabels : List (Option String)
  semChunkIds : List String
  qEmbOk : Bool
  embedOk : Bool
  sim : String → ℚ

/-- The metadata dictionary of the retrieval result. -/
structure RMetadata where
  error : Option String
  total_candidates : Nat
  selected_count : Nat
  total_chars : Nat
  relevant_weeks : List (Option String)
deriving DecidableEq

/-- The return value of `Retrieval.retrieve`. -/
structure RetrieveResult where
  chunks : List RetrievedChunk
  metadata : RMetadata

/-- The inline `personal_keywords` list of `Retrieval.retrieve`. -/
def personal_keywords : List String :=
  ["you", "your", "archit", "location", "city", "stay", "live", "where",
   "email", "contact", "phone", "role", "team", "work", "timezone"]

/-- The date-range merge: `existing_ids` is computed once before the
loop (the source does not extend it while appending). -/
def mergeTimeChunks (cands : List Chunk) (tcs : List Chunk) : List Chunk :=
  let existing := cands.map (fun c => c.id)
  cands ++ tcs.filter (fun tc => !(existing.contains tc.id))

/-- The identity-chunk merge: here the source updates `existing_ids`
inside the loop, so duplicates within `ics` are also dropped. -/
def mergeIdentityChunks (cands : List Chunk) (ics : List Chunk) : List Chunk :=
  (ics.foldl
    (fun (st : List Chunk × List String) ic =>
      if st.2.contains ic.id then st else (st.1 ++ [ic], st.2 ++ [ic.id]))
    (cands, cands.map (fun c => c.id))).1

/-- Stable insertion (descending by score): the element goes before the
first strictly smaller score, after equal ones. -/
def insertDesc (x : ℚ × Chunk) : List (ℚ × Chunk) → List (ℚ × Chunk)
  | [] => [x]
  | y :: ys => if y.1 < x.1 then x :: y :: ys else y :: insertDesc x ys

/-- `scores.sort(key=lambda x: x[0], reverse=True)`: Python's sort is a
stable sort by key, modelled by stable insertion sort (extensionally
the same list). -/
def sortDesc : List (ℚ × Chunk) → List (ℚ × Chunk)
  | [] => []
  | x :: xs => insertDesc x (sortDesc xs)

/-- The greedy selection loop (step 4 of `retrieve`): walk the sorted
candidates, and break at the first bound violation - either `top_k`
entries already selected, or the text of the next chunk would push the
accumulated character count beyond the budget. -/
def selectLoop (top_k budget : Nat) : List (ℚ × Chunk) → Nat → Nat → List RetrievedChunk
  | [], _, _ => []
  | (s, c) :: rest, selCount, total =>
    if top_k ≤ selCount then []
    else if budget < total + c.text.length then []
    else ⟨c, s⟩ :: selectLoop top_k budget rest (selCount + 1) (total + c.text.length)

/-- Summed text length of a selection (equals the loop's running
`total_chars`). -/
def totalLen (sel : List RetrievedChunk) : Nat :=
  (sel.map (fun rc => rc.chunk.text.length)).sum

/-- The final score of a candidate chunk: cosine similarity (oracle)
plus the flat profile boost for personal queries and the flat boost for
chunks inside an explicit date range; a chunk missing from the (all-or-
nothing) embedding batch scores a plain 0.0. -/
def chunkScore (env : Env) (is_personal : Bool) (date_range : Option (Int × Int)) (c : Chunk) : ℚ :=
  if env.embedOk then
    env.sim c.id +
    (if is_personal && substrOf "identity.md" c.file then (1 : ℚ)/2 else 0) +
    (match date_range, c.timestamp with
     | some (s, e), some ts => if s ≤ ts ∧ ts ≤ e then (3 : ℚ)/10 else 0
     | _, _ => 0)
  else 0

/-- `Retrieval.retrieve(query, date_range, max_context_chars)` with the
configured `top_k`: candidate assembly (coarse routing, date-range
merge, whole-store fallback, forced identity chunks for personal
queries), scoring, stable descending sort, greedy bounded selection. -/
def retrieve (env : Env) (query : String) (date_range : Option (Int × Int))
    (max_context_chars : Nat) (top_k : Nat) : RetrieveResult :=
  if !env.qEmbOk then
    ⟨[], ⟨some "embedding failed", 0, 0, 0, []⟩⟩
  else
    let candidate0 := env.semChunkIds.filterMap (fun cid => get_chunk_by_id env.raw cid)
    let candidate1 :=
      match date_range with
      | some (s, e) => mergeTimeChunks candidate0 (get_chunks_by_time_range env.raw s e)
      | none => candidate0
    let candidate2 := if candidate1.isEmpty then env.raw.raw_chunks else candidate1
    let is_personal := personal_keywords.any (fun k => substrOf k (lcase query))
    let candidate3 :=
      if is_personal then
        mergeIdentityChunks candidate2
          (env.raw.raw_chunks.filter (fun c => substrOf "identity.md" c.file))
      else candidate2
    let sorted := sortDesc (candidate3.map (fun c => (chunkScore env is_personal date_range c, c)))
    let selected := selectLoop top_k max_context_chars sorted 0 0
    ⟨selected, ⟨none, candidate3.length, selected.length, totalLen selected, env.relevantWeekLabels⟩⟩

end Retrieval

namespace StyleLayer

/-- Index (if any) of the last occurrence of `pat` in `hay`, for
Python `str.rsplit(pat, 1)`. -/
def lastOccAux (hay pat : List Char) (pos : Nat) : Option Nat :=
  match hay with
  | [] => none
  | _ :: t =>
    match lastOccAux t pat (pos + 1) with
    | some j => some j
    | none => if listStarts pat hay then some pos else none

/-- `StyleLayer.apply_style(answer_result)`: refusals, quote-only
answers and very short answers pass through; otherwise the trailing
`Sources:` line is split off, the body is restyled by the model call
(oracle `styleGen`, with the body kept on failure or empty output), and
the sources line is re-attached.  Citations are never touched. -/
def apply_style (styleGen : Option String) (r : Verdict) : Verdict :=
  let answer := r.answer
  let answer_lower := lcase answer
  if substrOf "do not see" answer_lower || substrOf "don\x27t see" answer_lower then r
  else if listStarts "From my data:".toList answer.toList then r
  else if answer.length < 10 then r
  else
    let occ := lastOccAux answer.toList "Sources:".toList 0
    let hasSources := substrOf "Sources:" answer
    let answer_body :=
      if hasSources then
        match occ with
        | some i => pyStrip (⟨answer.toList.take i⟩ : String)
        | none => answer
      else answer
    let sources_line :=
      if hasSources then
        match occ with
        | some i => "Sources:" ++ (⟨answer.toList.drop (i + 8)⟩ : String)
        | none => ""
      else ""
    let styled0 := pyStrip (styleGen.getD answer_body)
    let styled1 := if styled0 == "" then answer_body else styled0
    let styled2 := if sources_line == "" then styled1 else styled1 ++ "\n\n" ++ sources_line
    { r with answer := styled2 }

end StyleLayer

namespace DigitalTwin

/-- The oracles and configuration one `DigitalTwin.answer` call reads:
the retrieval environment, the query-understanding collaborator
(only its `date_range` field is consumed), the extraction generation
call and JSON decoder, the entailment oracle, the answer generation
call, the restyling call, and the two configured limits. -/
structure Env where
  renv : Retrieval.Env
  parseQuery : String → Option (Int × Int)
  extractGen : Option String
  parseJson : String → ParseOutcome
  entOracle : String
  gateGen : Option String
  styleGen : Option String
  top_k : Nat
  max_context_chars : Nat

/-- The greeting strings handled as UI intents. -/
def greetings : List String := ["hi", "hello", "hey"]

/-- The help-intent strings handled as UI intents. -/
def help_intents : List String :=
  ["help", "what can you do", "how do you work", "examples", "example questions"]

/-- The canned greeting Verdict. -/
def greetingVerdict : Verdict :=
  ⟨"Hi. You can ask me about my work, decisions, and messages. For example: What happened in late December around inference?",
   "none", "Greeting handled as a UI intent without using memory.", []⟩

/-- The canned help Verdict. -/
def helpVerdict : Verdict :=
  ⟨"I answer questions about my work using only the data you provided. If I cannot find evidence, I will refuse. Try asking: What was I working on in Q4 2025?",
   "none", "Help intent handled as a UI intent without using memory.", []⟩

/-- `DigitalTwin.answer(question)` (without the debug payload): the
UI-intent shortcuts, query parsing, answer-mode selection, retrieval,
evidence extraction, the verifier gate and the style pass.  `none`
models an uncaught exception from the extraction layer. -/
def answer (env : Env) (question : String) : Option Verdict :=
  let q := lcase (pyStrip question)
  if greetings.contains q then some greetingVerdict
  else if help_intents.contains q then some helpVerdict
  else
    let date_range := env.parseQuery question
    let question_lower := lcase question
    let is_summary_mode :=
      date_range.isSome ||
      listStarts "what happened".toList question_lower.toList ||
      listStarts "what was i working on".toList question_lower.toList ||
      substrOf "what was i doing" question_lower
    let answer_mode := if is_summary_mode then "SUMMARY_MODE" else "FACT_MODE"
    let retrieval_result := Retrieval.retrieve env.renv question date_range env.max_context_chars env.top_k
    match EvidenceExtraction.extract retrieval_result.chunks env.extractGen env.parseJson answer_mode with
    | none => none
    | some evidence =>
      some (StyleLayer.apply_style env.styleGen
        (VerifierGate.generate_answer question evidence answer_mode env.entOracle env.gateGen))

end DigitalTwin

/-! ### Helper lemmas on the string primitives -/

theorem dropWhile_self (p : Char → Bool) (l : List Char) :
    List.dropWhile p (List.dropWhile p l) = List.dropWhile p l := by
  induction l with
  | nil => rfl
  | cons c t ih =>
    by_cases h : p c = true
    · simp [List.dropWhile_cons, h, ih]
    · simp only [Bool.not_eq_true] at h
      simp [List.dropWhile_cons, h]

theorem dropWhile_head_false (p : Char → Bool) (l : List Char) (a : Char) (as : List Char)
    (h : List.dropWhile p l = a :: as) : p a = false := by
  have := List.head?_dropWhile_not p l
  rw [h] at this
  simpa using this

theorem dropWhile_of_head_false (p : Char → Bool) (a : Char) (as : List Char)
    (h : p a = false) : List.dropWhile p (a :: as) = a :: as := by
  simp [List.dropWhile_cons, h]

theorem dropWhile_getLast? (p : Char → Bool) (l : List Char)
    (h : List.dropWhile p l ≠ []) : (List.dropWhile p l).getLast? = l.getLast? := by
  induction l with
  | nil => simp at h
  | cons c t ih =>
    by_cases hpc : p c = true
    · rw [List.dropWhile_cons, if_pos hpc] at h ⊢
      have ht : t ≠ [] := by
        intro he
        rw [he] at h
        simp at h
      rw [ih h]
      match t, ht with
      | b :: bs, _ => simp
    · simp only [Bool.not_eq_true] at hpc
      rw [List.dropWhile_cons, if_neg (by simp [hpc])]

theorem pyStripL_idem (l : List Char) : pyStripL (pyStripL l) = pyStripL l := by
  unfold pyStripL
  set A := List.dropWhile isPyWs l with hA
  set B := List.dropWhile isPyWs A.reverse with hB
  rcases hBe : B with _ | ⟨b, bs⟩
  · simp [hBe]
  · have hBne : B ≠ [] := by rw [hBe]; simp
    have hAne : A ≠ [] := by
      intro he
      rw [he] at hB
      simp at hB
      rw [hB] at hBe
      exact (List.cons_ne_nil b bs) hBe.symm
    rcases hAe : A with _ | ⟨a, as⟩
    · exact absurd hAe hAne
    · have ha : isPyWs a = false := dropWhile_head_false isPyWs l a as (hA ▸ hAe)
      have hlast : B.getLast? = some a := by
        have h1 : B.getLast? = A.reverse.getLast? := hB ▸ dropWhile_getLast? isPyWs A.reverse (hB ▸ hBne)
        rw [h1, List.getLast?_reverse, hAe]
        simp
      have hheadrev : B.reverse.head? = some a := by
        rw [List.head?_reverse, hlast]
      have hdropBrev : List.dropWhile isPyWs B.reverse = B.reverse := by
        rcases hBr : B.reverse with _ | ⟨x, xs⟩
        · rfl
        · have hx : x = a := by
            rw [hBr] at hheadrev
            simpa using hheadrev
          exact dropWhile_of_head_false isPyWs x xs (hx ▸ ha)
      have hb : isPyWs b = false := dropWhile_head_false isPyWs A.reverse b bs (hB ▸ hBe)
      have hdropB : List.dropWhile isPyWs B = B := by
        rw [hBe]
        exact dropWhile_of_head_false isPyWs b bs hb
      rw [← hBe, hdropBrev, List.reverse_reverse, hdropB]

theorem pyStrip_idem (s : String) : pyStrip (pyStrip s) = pyStrip s := by
  unfold pyStrip
  have h : (⟨pyStripL s.toList⟩ : String).toList = pyStripL s.toList := rfl
  rw [h, pyStripL_idem]

theorem matchEmailAt_eq_none (prev : Option Char) (l : List Char) (h : '@' ∉ l) :
    matchEmailAt prev l = none := by
  match l with
  | [] => rfl
  | c :: cs =>
    rw [matchEmailAt]
    have hsuf : List.dropWhile isLocalChar (c :: cs) <:+ c :: cs := List.dropWhile_suffix _
    rcases hr : List.dropWhile isLocalChar (c :: cs) with _ | ⟨d, r2⟩
    · split
      · rfl
      · split
        · rfl
        · rfl
    · have hd : d ≠ '@' := by
        intro hde
        apply h
        apply hsuf.subset
        rw [hr, hde]
        exact List.mem_cons_self _ _
      split
      · rfl
      · split
        · rfl
        · simp only [if_neg hd]

theorem redactAux_no_at (fuel : Nat) (prev : Option Char) (l : List Char) (h : '@' ∉ l) :
    redactAux fuel prev l = l := by
  induction fuel generalizing prev l with
  | zero => rfl
  | succ n ih =>
    match l with
    | [] => rfl
    | c :: rest =>
      rw [redactAux, matchEmailAt_eq_none prev (c :: rest) h]
      rw [ih (some c) rest (fun hm => h (List.mem_cons_of_mem c hm))]

theorem redactEmails_no_at (s : String) (h : '@' ∉ s.toList) : redactEmails s = s := by
  unfold redactEmails
  rw [redactAux_no_at _ _ _ h]
  rfl

/-! ### Soundness of the extraction layer -/

theorem validateQuote_keep (chunks : List RetrievedChunk) (minLen : Nat) (quote : String)
    (n : Nat) (e : EvidenceItem) (hn : n < chunks.length)
    (h : EvidenceExtraction.validateQuote chunks minLen quote n = .keep e) :
    ∃ rc ∈ chunks, e = ⟨quote, rc.chunk.id, rc.chunk.file, rc.chunk.timestamp⟩ ∧
      substrOf (normWs quote) (normWs rc.chunk.text) = true := by
  unfold EvidenceExtraction.validateQuote at h
  split at h
  · exact absurd h (by simp)
  · simp only [] at h
    split at h
    · next hsub =>
      refine ⟨chunks.getD n ⟨⟨"", "", "", none⟩, 0⟩, ?_, ?_, ?_⟩
      · rw [List.getD_eq_getElem _ _ hn]
        exact List.getElem_mem hn
      · cases h
        rfl
      · exact hsub
    · exact absurd h (by simp)

theorem processItem_keep (chunks : List RetrievedChunk) (minLen : Nat) (item : JVal)
    (e : EvidenceItem) (h : EvidenceExtraction.processItem chunks minLen item = .keep e) :
    ∃ rc ∈ chunks, e.chunk_id = rc.chunk.id ∧ e.file = rc.chunk.file ∧
      e.timestamp = rc.chunk.timestamp ∧
      substrOf (normWs e.quote) (normWs rc.chunk.text) = true ∧
      ∃ raw, e.quote = pyStrip raw := by
  unfold EvidenceExtraction.processItem at h
  rcases item with _ | b | n | s | xs | kvs
  · exact absurd h (by simp)
  · exact absurd h (by simp)
  · exact absurd h (by simp)
  · exact absurd h (by simp)
  · exact absurd h (by simp)
  · simp only [] at h
    split at h
    · next q0 hq =>
      split at h
      · exact absurd h (by simp)
      · next n hci =>
        split at h
        · exact absurd h (by simp)
        · next hb =>
          have hn : n.toNat < chunks.length := by omega
          obtain ⟨rc, hmem, he, hsub⟩ := validateQuote_keep chunks minLen (pyStrip q0) n.toNat e hn h
          exact ⟨rc, hmem, by rw [he], by rw [he], by rw [he], by rw [he]; exact hsub,
            ⟨q0, by rw [he]⟩⟩
      · next b hci =>
        split at h
        · exact absurd h (by simp)
        · next hb =>
          have hn : b.toNat < chunks.length := by omega
          obtain ⟨rc, hmem, he, hsub⟩ :=
            validateQuote_keep chunks minLen (pyStrip q0) b.toNat e hn h
          exact ⟨rc, hmem, by rw [he], by rw [he], by rw [he], by rw [he]; exact hsub,
            ⟨q0, by rw [he]⟩⟩
      · exact absurd h (by simp)
    · exact absurd h (by simp)

theorem processItems_mem (chunks : List RetrievedChunk) (minLen : Nat) (items : List JVal)
    (es : List EvidenceItem) (h : EvidenceExtraction.processItems chunks minLen items = some es) :
    ∀ e ∈ es, ∃ rc ∈ chunks, e.chunk_id = rc.chunk.id ∧ e.file = rc.chunk.file ∧
      e.timestamp = rc.chunk.timestamp ∧
      substrOf (normWs e.quote) (normWs rc.chunk.text) = true ∧
      ∃ raw, e.quote = pyStrip raw := by
  induction items generalizing es with
  | nil =>
    simp only [EvidenceExtraction.processItems, Option.some.injEq] at h
    subst h
    intro e he
    simp at he
  | cons item rest ih =>
    rw [EvidenceExtraction.processItems] at h
    rcases hpi : EvidenceExtraction.processItem chunks minLen item with _ | e' | _ | _ <;>
      rw [hpi] at h
    · exact ih es h
    · rcases hrest : EvidenceExtraction.processItems chunks minLen rest with _ | es'
      · rw [hrest] at h
        simp at h
      · rw [hrest] at h
        simp only [Option.map_some', Option.some.injEq] at h
        subst h
        intro e he
        rcases List.mem_cons.mp he with he' | he'
        · subst he'
          exact processItem_keep chunks minLen item e hpi
        · exact ih es' hrest e he'
    · simp only [Option.some.injEq] at h
      subst h
      intro e he
      simp at he
    · simp at h

theorem extract_evidence_sound (chunks : List RetrievedChunk) (genResult : Option String)
    (parseJson : String → ParseOutcome) (answer_mode : String) (er : ExtractResult)
    (h : EvidenceExtraction.extract chunks genResult parseJson answer_mode = some er) :
    ∀ e ∈ er.evidence, ∃ rc ∈ chunks, e.chunk_id = rc.chunk.id ∧ e.file = rc.chunk.file ∧
      e.timestamp = rc.chunk.timestamp ∧
      substrOf (normWs e.quote) (normWs rc.chunk.text) = true ∧
      ∃ raw, e.quote = pyStrip raw := by
  unfold EvidenceExtraction.extract at h
  by_cases hemp : chunks.isEmpty
  · rw [if_pos hemp] at h
    cases h
    intro e he
    simp at he
  · rw [if_neg hemp] at h
    simp only [] at h
    rcases hp : parseJson (pyStrip (genResult.getD "\x7b\"evidence\":[]\x7d")) with _ | v <;>
      rw [hp] at h <;> simp only [] at h
    · simp only [Option.some.injEq] at h
      subst h
      intro e he
      simp at he
    · rcases v with _ | b | n | s | xs | kvs
      · simp at h
      · simp at h
      · simp at h
      · simp at h
      · simp at h
      · simp only [] at h
        rcases hit : EvidenceExtraction.iterItems ((kvs.lookup "evidence").getD (.jlist []))
            with xs | _ <;> rw [hit] at h <;> simp only [] at h
        · rcases hpi : EvidenceExtraction.processItems chunks
              (if answer_mode == "SUMMARY_MODE" then 5 else 8) xs with _ | es <;> rw [hpi] at h
          · simp at h
          · simp only [Option.some.injEq] at h
            subst h
            exact processItems_mem chunks _ xs es hpi
        · simp only [Option.some.injEq] at h
          subst h
          intro e he
          simp at he

/-! ### Helper lemmas on the verifier gate -/

theorem contains_false_not_mem (l : List String) (a : String)
    (h : l.contains a = false) : a ∉ l := by
  intro hm
  have ht : l.contains a = true := by
    unfold List.contains
    exact List.elem_iff.mpr hm
  rw [ht] at h
  cases h

theorem quoteOnlyFold_len_le (evs : List EvidenceItem) (seen lines : List String)
    (h : lines.length ≤ 3) :
    (VerifierGate.quoteOnlyFold evs seen lines).2.length ≤ 3 := by
  induction evs generalizing seen lines with
  | nil => simpa [VerifierGate.quoteOnlyFold] using h
  | cons ev rest ih =>
    rw [VerifierGate.quoteOnlyFold]
    split
    · next hc =>
      have h3 : lines.length < 3 := by
        have := (Bool.and_eq_true _ _).mp hc
        exact of_decide_eq_true this.2
      exact ih _ _ (by simp; omega)
    · exact ih _ _ h

theorem quoteOnlyFold_len_ge (evs : List EvidenceItem) (seen lines : List String) :
    lines.length ≤ (VerifierGate.quoteOnlyFold evs seen lines).2.length := by
  induction evs generalizing seen lines with
  | nil => simp [VerifierGate.quoteOnlyFold]
  | cons ev rest ih =>
    rw [VerifierGate.quoteOnlyFold]
    split
    · calc lines.length ≤ (lines ++ ["- " ++ ev.quote]).length := by simp
        _ ≤ _ := ih _ _
    · exact ih _ _

theorem quoteOnlySel_ne_nil (evs : List EvidenceItem) (h : evs ≠ []) :
    (VerifierGate.quoteOnlySel evs).2 ≠ [] := by
  match evs, h with
  | ev :: rest, _ =>
    unfold VerifierGate.quoteOnlySel
    rw [VerifierGate.quoteOnlyFold]
    rw [if_pos (by simp [List.contains])]
    have h1 : (["- " ++ ev.quote] : List String).length ≤
        (VerifierGate.quoteOnlyFold rest [ev.chunk_id] ["- " ++ ev.quote]).2.length :=
      quoteOnlyFold_len_ge rest _ _
    intro he
    simp only [List.nil_append] at he
    rw [he] at h1
    simp at h1

theorem quoteOnlyFold_seen_nodup (evs : List EvidenceItem) (seen lines : List String)
    (h : seen.Nodup) : (VerifierGate.quoteOnlyFold evs seen lines).1.Nodup := by
  induction evs generalizing seen lines with
  | nil => simpa [VerifierGate.quoteOnlyFold] using h
  | cons ev rest ih =>
    rw [VerifierGate.quoteOnlyFold]
    split
    · next hc =>
      have hnm : ev.chunk_id ∉ seen := by
        have h1 := ((Bool.and_eq_true _ _).mp hc).1
        exact contains_false_not_mem seen ev.chunk_id (by
          cases hcc : seen.contains ev.chunk_id
          · rfl
          · rw [hcc] at h1
            cases h1)
      refine ih _ _ ?_
      rw [List.nodup_append]
      refine ⟨h, by simp, ?_⟩
      intro b hb hbm
      simp at hbm
      exact hnm (hbm ▸ hb)
    · exact ih _ _ h

theorem quoteOnlyFold_lines_from (evs : List EvidenceItem) (seen lines : List String) :
    ∀ x ∈ (VerifierGate.quoteOnlyFold evs seen lines).2,
      x ∈ lines ∨ ∃ e ∈ evs, x = "- " ++ e.quote := by
  induction evs generalizing seen lines with
  | nil =>
    intro x hx
    rw [VerifierGate.quoteOnlyFold] at hx
    exact Or.inl hx
  | cons ev rest ih =>
    intro x hx
    rw [VerifierGate.quoteOnlyFold] at hx
    split at hx
    · rcases ih _ _ x hx with hmem | ⟨e, he, hxe⟩
      · rcases List.mem_append.mp hmem with hl | hr
        · exact Or.inl hl
        · simp at hr
          exact Or.inr ⟨ev, List.mem_cons_self _ _, hr⟩
      · exact Or.inr ⟨e, List.mem_cons_of_mem _ he, hxe⟩
    · rcases ih _ _ x hx with hmem | ⟨e, he, hxe⟩
      · exact Or.inl hmem
      · exact Or.inr ⟨e, List.mem_cons_of_mem _ he, hxe⟩

theorem buildCitation_some (ev : EvidenceItem) (cit : Citation)
    (h : VerifierGate.buildCitation ev = some cit) :
    cit.chunk_id = ev.chunk_id ∧ cit.source = ev.file ∧ cit.timestamp = ev.timestamp ∧
    VerifierGate.isValidQuote (pyStrip ev.quote) = true ∧
    ((substrOf "identity.md" ev.file = true ∧ cit.text = pyStrip ev.quote) ∨
     (substrOf "identity.md" ev.file = false ∧ cit.text = redactEmails (pyStrip ev.quote))) ∧
    containsSensitiveInfo cit.text cit.source = false := by
  unfold VerifierGate.buildCitation at h
  simp only [] at h
  split at h
  · next hval =>
    rcases hid : substrOf "identity.md" ev.file with _ | _
    · rw [hid] at h
      simp only [Bool.false_eq_true, if_false] at h
      split at h
      · simp at h
      · next hsens =>
        cases h
        exact ⟨rfl, rfl, rfl, hval, Or.inr ⟨rfl, rfl⟩, by simpa using hsens⟩
    · rw [hid] at h
      simp only [if_true] at h
      split at h
      · simp at h
      · next hsens =>
        cases h
        exact ⟨rfl, rfl, rfl, hval, Or.inl ⟨rfl, rfl⟩, by simpa using hsens⟩
  · simp at h

theorem buildCitations_origin (evs : List EvidenceItem) (cit : Citation)
    (h : cit ∈ VerifierGate.buildCitations evs) :
    ∃ e ∈ evs, cit.chunk_id = e.chunk_id ∧ cit.source = e.file ∧
      (cit.text = pyStrip e.quote ∨ cit.text = redactEmails (pyStrip e.quote)) := by
  rcases List.mem_filterMap.mp h with ⟨e, hmem, hbc⟩
  obtain ⟨h1, h2, _, _, h5, _⟩ := buildCitation_some e cit hbc
  rcases h5 with ⟨_, ht⟩ | ⟨_, ht⟩
  · exact ⟨e, hmem, h1, h2, Or.inl ht⟩
  · exact ⟨e, hmem, h1, h2, Or.inr ht⟩

theorem buildCitations_identity_kept (evs : List EvidenceItem) (e : EvidenceItem)
    (hmem : e ∈ evs) (hid : substrOf "identity.md" e.file = true)
    (hval : VerifierGate.isValidQuote (pyStrip e.quote) = true) :
    (⟨pyStrip e.quote, e.file, e.chunk_id, e.timestamp⟩ : Citation) ∈
      VerifierGate.buildCitations evs := by
  refine List.mem_filterMap.mpr ⟨e, hmem, ?_⟩
  have hsf : containsSensitiveInfo (pyStrip e.quote) e.file = false := by
    by_cases hq : (pyStrip e.quote == "") = true
    · unfold containsSensitiveInfo
      rw [if_pos hq]
    · unfold containsSensitiveInfo
      rw [if_neg hq, if_pos hid]
  unfold VerifierGate.buildCitation
  simp only [hval, if_true, hid, hsf, Bool.false_eq_true, if_false]

theorem finalPhase_cases (evidence : ExtractResult) (boost : Option String)
    (g : Option String) (hb : ∀ u, boost = some u → u ≠ "none") :
    VerifierGate.finalPhase evidence boost g =
      ⟨"I cannot share that because it contains sensitive information.", "none",
       "Answer blocked due to sensitive information detection.", []⟩ ∨
    (VerifierGate.finalPhase evidence boost g =
        ⟨VerifierGate.gateGenerate g, (VerifierGate.finalPhase evidence boost g).confidence,
         "Based on " ++ toString (VerifierGate.buildCitations evidence.evidence).length ++
           " valid citation(s) from retrieved context.",
         VerifierGate.buildCitations evidence.evidence⟩ ∧
      ((VerifierGate.finalPhase evidence boost g).confidence = "none" ↔
        substrOf "do not see" (lcase (VerifierGate.gateGenerate g)) = true)) := by
  unfold VerifierGate.finalPhase
  simp only []
  split
  · exact Or.inl rfl
  · refine Or.inr ⟨rfl, ?_⟩
    simp only []
    rcases href : substrOf "do not see" (lcase (VerifierGate.gateGenerate g)) with _ | _
    · simp only [href, Bool.false_eq_true, if_false]
      constructor
      · intro hc
        rcases boost with _ | u
        · simp only [] at hc
          split at hc
          · exact absurd hc (by decide)
          · exact absurd hc (by decide)
        · have hu := hb u rfl
          simp only [] at hc
          split at hc
          · split at hc
            · exact absurd hc (by decide)
            · exact absurd hc (by decide)
          · exact absurd hc hu
      · intro hc
        cases hc
    · simp only [href, if_true]

theorem gate_citation_origin (question : String) (evidence : ExtractResult)
    (answer_mode entOracle : String) (genResult : Option String) (cit : Citation)
    (h : cit ∈ (VerifierGate.generate_answer question evidence answer_mode entOracle genResult).citations) :
    ∃ e ∈ evidence.evidence, cit.chunk_id = e.chunk_id ∧ cit.source = e.file ∧
      (cit.text = e.quote ∨ cit.text = pyStrip e.quote ∨ cit.text = redactEmails (pyStrip e.quote)) := by
  have hfp : ∀ boost, cit ∈ (VerifierGate.finalPhase evidence boost genResult).citations →
      ∃ e ∈ evidence.evidence, cit.chunk_id = e.chunk_id ∧ cit.source = e.file ∧
        (cit.text = e.quote ∨ cit.text = pyStrip e.quote ∨ cit.text = redactEmails (pyStrip e.quote)) := by
    intro boost hm
    unfold VerifierGate.finalPhase at hm
    simp only [] at hm
    split at hm
    · simp at hm
    · obtain ⟨e, hmem, h1, h2, h3⟩ := buildCitations_origin evidence.evidence cit hm
      exact ⟨e, hmem, h1, h2, Or.inr h3⟩
  unfold VerifierGate.generate_answer at h
  split at h
  · simp at h
  · split at h
    · simp at h
    · split at h
      · simp only [] at h
        split at h
        · simp at h
        · exact hfp _ h
      · simp only [] at h
        split at h
        · simp at h
        · split at h
          · split at h
            · rcases List.mem_map.mp h with ⟨e, hmem, hcit⟩
              have hmem' : e ∈ evidence.evidence := (List.mem_filter.mp hmem).1
              refine ⟨e, hmem', ?_, ?_, Or.inl ?_⟩ <;> rw [← hcit]
            · simp at h
          · exact hfp _ h

/-! ### Helper lemmas on the retrieval selection loop -/

theorem selectLoop_budget (top_k budget : Nat) (l : List (ℚ × Chunk)) (selCount total : Nat)
    (h : total ≤ budget) :
    Retrieval.totalLen (Retrieval.selectLoop top_k budget l selCount total) + total ≤ budget := by
  induction l generalizing selCount total with
  | nil => simpa [Retrieval.selectLoop, Retrieval.totalLen] using h
  | cons p rest ih =>
    rcases p with ⟨s, c⟩
    rw [Retrieval.selectLoop]
    split
    · simpa [Retrieval.totalLen] using h
    · split
      · simpa [Retrieval.totalLen] using h
      · next hbud =>
        have hle : total + c.text.length ≤ budget := by omega
        have := ih (selCount + 1) (total + c.text.length) hle
        simp only [Retrieval.totalLen, List.map_cons, List.sum_cons] at this ⊢
        omega

theorem selectLoop_count (top_k budget : Nat) (l : List (ℚ × Chunk)) (selCount total : Nat)
    (h : selCount ≤ top_k) :
    (Retrieval.selectLoop top_k budget l selCount total).length + selCount ≤ top_k := by
  induction l generalizing selCount total with
  | nil => simpa [Retrieval.selectLoop] using h
  | cons p rest ih =>
    rcases p with ⟨s, c⟩
    rw [Retrieval.selectLoop]
    split
    · next hk =>
      simp
      omega
    · split
      · simpa using h
      · next hk _ =>
        have hk' : selCount < top_k := by omega
        have := ih (selCount + 1) (total + c.text.length) hk'
        simp only [List.length_cons]
        omega

theorem selectLoop_take (top_k budget : Nat) (l : List (ℚ × Chunk)) (selCount total : Nat) :
    Retrieval.selectLoop top_k budget l selCount total =
      (l.take (Retrieval.selectLoop top_k budget l selCount total).length).map
        (fun p => ⟨p.2, p.1⟩) := by
  induction l generalizing selCount total with
  | nil => simp [Retrieval.selectLoop]
  | cons p rest ih =>
    rcases p with ⟨s, c⟩
    rw [Retrieval.selectLoop]
    split
    · simp
    · split
      · simp
      · simp only [List.length_cons, List.take_succ_cons, List.map_cons]
        rw [← ih (selCount + 1) (total + c.text.length)]

theorem selectLoop_stop (top_k budget : Nat) (l : List (ℚ × Chunk)) (selCount total : Nat) :
    (Retrieval.selectLoop top_k budget l selCount total).length = l.length ∨
    top_k ≤ selCount + (Retrieval.selectLoop top_k budget l selCount total).length ∨
    budget < total + Retrieval.totalLen (Retrieval.selectLoop top_k budget l selCount total) +
      (l.getD (Retrieval.selectLoop top_k budget l selCount total).length
        (0, ⟨"", "", "", none⟩)).2.text.length := by
  induction l generalizing selCount total with
  | nil => simp [Retrieval.selectLoop]
  | cons p rest ih =>
    rcases p with ⟨s, c⟩
    rw [Retrieval.selectLoop]
    split
    · next hk =>
      refine Or.inr (Or.inl ?_)
      simp
      omega
    · split
      · next hbud =>
        refine Or.inr (Or.inr ?_)
        simpa [Retrieval.totalLen] using hbud
      · next hk hbud =>
        rcases ih (selCount + 1) (total + c.text.length) with h1 | h2 | h3
        · left
          simp only [List.length_cons]
          omega
        · refine Or.inr (Or.inl ?_)
          simp only [List.length_cons]
          omega
        · refine Or.inr (Or.inr ?_)
          simp only [List.length_cons, Retrieval.totalLen, List.map_cons, List.sum_cons,
            List.getD_cons_succ] at h3 ⊢
          omega

theorem mem_insertDesc (x y : ℚ × Chunk) (l : List (ℚ × Chunk)) :
    y ∈ Retrieval.insertDesc x l ↔ y = x ∨ y ∈ l := by
  induction l with
  | nil => simp [Retrieval.insertDesc]
  | cons z zs ih =>
    rw [Retrieval.insertDesc]
    split
    · simp
    · simp only [List.mem_cons, ih]
      tauto

theorem insertDesc_pairwise (x : ℚ × Chunk) (l : List (ℚ × Chunk))
    (h : l.Pairwise (fun a b => b.1 ≤ a.1)) :
    (Retrieval.insertDesc x l).Pairwise (fun a b => b.1 ≤ a.1) := by
  induction l with
  | nil => simp [Retrieval.insertDesc]
  | cons z zs ih =>
    rw [Retrieval.insertDesc]
    rcases List.pairwise_cons.mp h with ⟨hz, hzs⟩
    split
    · next hlt =>
      refine List.pairwise_cons.mpr ⟨?_, h⟩
      intro b hb
      rcases List.mem_cons.mp hb with hbz | hbm
      · subst hbz
        exact le_of_lt hlt
      · exact le_trans (hz b hbm) (le_of_lt hlt)
    · next hge =>
      refine List.pairwise_cons.mpr ⟨?_, ih hzs⟩
      intro b hb
      rcases (mem_insertDesc x b zs).mp hb with hbx | hbm
      · subst hbx
        exact not_lt.mp hge
      · exact hz b hbm

theorem sortDesc_pairwise (l : List (ℚ × Chunk)) :
    (Retrieval.sortDesc l).Pairwise (fun a b => b.1 ≤ a.1) := by
  induction l with
  | nil => simp [Retrieval.sortDesc]
  | cons x xs ih => exact insertDesc_pairwise x (Retrieval.sortDesc xs) ih

/-! ### Claim theorems -/

/-- C3: a question that matches a credential/secret-like pattern or
keyword is blocked before anything else: for every evidence input,
answer mode and oracle outcome, `generate_answer` returns the fixed
refusal with confidence `none` and no citations, and no evidence or
model call influences the result. -/
theorem sensitive_question_blocked (question : String) (evidence : ExtractResult)
    (answer_mode entOracle : String) (genResult : Option String)
    (h : containsSensitiveInfo question "" = true) :
    VerifierGate.generate_answer question evidence answer_mode entOracle genResult =
      ⟨"I cannot share sensitive information like credentials, passwords, or API keys.", "none",
       "Question blocked due to requesting sensitive information.", []⟩ := by
  unfold VerifierGate.generate_answer
  rw [if_pos h]

/-- C3 witness: a concrete credential-seeking question is blocked even
with supporting evidence supplied in fact mode. -/
theorem sensitive_question_blocked_witness :
    containsSensitiveInfo "what is my password" "" = true ∧
    VerifierGate.generate_answer "what is my password"
        ⟨[⟨"the password was rotated on Friday", "w1:msg:0", "data/slack.md", none⟩], true,
          some "raw"⟩ "FACT_MODE" "yes" (some "canned answer") =
      ⟨"I cannot share sensitive information like credentials, passwords, or API keys.", "none",
       "Question blocked due to requesting sensitive information.", []⟩ :=
  ⟨by decide, sensitive_question_blocked _ _ _ _ _ (by decide)⟩

/-- C4: in fact mode, with a non-empty evidence set, an entailment
result of `no` yields the refusal Verdict with confidence `none` and
empty citations, whatever the generation oracle would have produced. -/
theorem entailment_no_refusal (question : String) (evidence : ExtractResult)
    (genResult : Option String)
    (h1 : containsSensitiveInfo question "" = false)
    (h2 : evidence.has_evidence = true)
    (h3 : evidence.evidence ≠ []) :
    VerifierGate.generate_answer question evidence "FACT_MODE" "no" genResult =
      ⟨"I do not see this in your data.", "none",
       "Evidence does not support the question.", []⟩ := by
  unfold VerifierGate.generate_answer
  rw [if_neg (by simp [h1])]
  rw [if_neg (by simpa [h2, List.length_eq_zero] using h3)]
  rw [if_neg (by decide)]
  simp only []
  rw [if_pos (by unfold VerifierGate.entailmentResult; split <;> decide)]

/-- C4 witness: concrete fact-mode call with one evidence item and an
entailment oracle answering `no`. -/
theorem entailment_no_refusal_witness :
    VerifierGate.generate_answer "when did the deploy happen"
        ⟨[⟨"deployed the service on Friday", "w1:msg:0", "data/slack.md", none⟩], true, some "raw"⟩
        "FACT_MODE" "no" (some "a generated answer") =
      ⟨"I do not see this in your data.", "none",
       "Evidence does not support the question.", []⟩ :=
  entailment_no_refusal _ _ _ (by decide) (by decide) (by decide)

theorem extract_shape (chunks : List RetrievedChunk) (genResult : Option String)
    (parseJson : String → ParseOutcome) (answer_mode : String) (er : ExtractResult)
    (h : EvidenceExtraction.extract chunks genResult parseJson answer_mode = some er) :
    er.has_evidence = decide (0 < er.evidence.length) := by
  unfold EvidenceExtraction.extract at h
  by_cases hemp : chunks.isEmpty
  · rw [if_pos hemp] at h
    cases h
    rfl
  · rw [if_neg hemp] at h
    simp only [] at h
    rcases hp : parseJson (pyStrip (genResult.getD "\x7b\"evidence\":[]\x7d")) with _ | v <;>
      rw [hp] at h <;> simp only [] at h
    · cases h
      rfl
    · rcases v with _ | b | n | s | xs | kvs
      · simp at h
      · simp at h
      · simp at h
      · simp at h
      · simp at h
      · simp only [] at h
        rcases hit : EvidenceExtraction.iterItems ((kvs.lookup "evidence").getD (.jlist []))
            with xs | _ <;> rw [hit] at h <;> simp only [] at h
        · rcases hpi : EvidenceExtraction.processItems chunks
              (if answer_mode == "SUMMARY_MODE" then 5 else 8) xs with _ | es <;> rw [hpi] at h
          · simp at h
          · cases h
            rfl
        · cases h
          rfl

/-- C5: fail-closed extraction.  If the generation call fails, or the
response does not decode as JSON, `extract` returns zero evidence
items; and whenever `extract` returns at all, `has_evidence` is `true`
exactly when the evidence list is non-empty.  The hypothesis pins the
decoding oracle on the source's literal fallback text
`'{"evidence":[]}'`, which is what `json.loads` returns on it. -/
theorem extract_fail_closed (chunks : List RetrievedChunk) (parseJson : String → ParseOutcome)
    (answer_mode : String)
    (hdflt : parseJson (pyStrip "\x7b\"evidence\":[]\x7d") =
      .parsed (.jdict [("evidence", .jlist [])])) :
    (∃ er, EvidenceExtraction.extract chunks none parseJson answer_mode = some er ∧
       er.evidence = [] ∧ er.has_evidence = false) ∧
    (∀ text er, parseJson (pyStrip text) = .parseFail →
       EvidenceExtraction.extract chunks (some text) parseJson answer_mode = some er →
       er.evidence = [] ∧ er.has_evidence = false) ∧
    (∀ genResult er, EvidenceExtraction.extract chunks genResult parseJson answer_mode = some er →
       (er.has_evidence = true ↔ er.evidence ≠ [])) := by
  refine ⟨?_, ?_, ?_⟩
  · by_cases hemp : chunks.isEmpty
    · refine ⟨⟨[], false, none⟩, ?_, rfl, rfl⟩
      unfold EvidenceExtraction.extract
      rw [if_pos hemp]
    · refine ⟨⟨[], false, some "\x7b\"evidence\":[]\x7d"⟩, ?_, rfl, rfl⟩
      unfold EvidenceExtraction.extract
      rw [if_neg hemp]
      simp only [Option.getD_none, hdflt]
      rfl
  · intro text er hp h
    unfold EvidenceExtraction.extract at h
    by_cases hemp : chunks.isEmpty
    · rw [if_pos hemp] at h
      cases h
      exact ⟨rfl, rfl⟩
    · rw [if_neg hemp] at h
      simp only [Option.getD_some, hp] at h
      cases h
      exact ⟨rfl, rfl⟩
  · intro genResult er h
    rw [extract_shape chunks genResult parseJson answer_mode er h]
    simp [List.length_pos]

/-- C5 witness: a decoding oracle that accepts only the fallback text;
the generation-failure call returns zero items with `has_evidence`
false. -/
theorem extract_fail_closed_witness :
    ∃ er, EvidenceExtraction.extract
        [⟨⟨"notes:chunk:0", "data/notes.md", "some chunk text", none⟩, 0⟩] none
        (fun _ => .parsed (.jdict [("evidence", .jlist [])])) "FACT_MODE" = some er ∧
      er.evidence = [] ∧ er.has_evidence = false :=
  (extract_fail_closed _ _ _ rfl).1

/-- C6: in fact mode with a non-empty evidence set, an `unknown`
entailment result yields the quote-only fallback: at most 3 quote
lines, each a verbatim evidence quote, drawn from pairwise-distinct
chunk ids, with confidence `medium`; at least one quote always
survives the distinctness filtering when evidence is non-empty (so the
refusal arm of that branch is unreachable), and the branch is terminal:
the answer-generation oracle has no influence on the result. -/
theorem entailment_unknown_quote_only (question : String) (evidence : ExtractResult)
    (genResult : Option String)
    (h1 : containsSensitiveInfo question "" = false)
    (h2 : evidence.has_evidence = true)
    (h3 : evidence.evidence ≠ []) :
    (VerifierGate.quoteOnlySel evidence.evidence).2 ≠ [] ∧
    (VerifierGate.quoteOnlySel evidence.evidence).2.length ≤ 3 ∧
    (VerifierGate.quoteOnlySel evidence.evidence).1.Nodup ∧
    (∀ line ∈ (VerifierGate.quoteOnlySel evidence.evidence).2,
       ∃ e ∈ evidence.evidence, line = "- " ++ e.quote) ∧
    VerifierGate.generate_answer question evidence "FACT_MODE" "unknown" genResult =
      ⟨"From my data:\n" ++ String.intercalate "\n" (VerifierGate.quoteOnlySel evidence.evidence).2,
       "medium", "Entailment unclear, returning quote-only answer.",
       (evidence.evidence.filter
          (fun ev => (VerifierGate.quoteOnlySel evidence.evidence).1.contains ev.chunk_id)).map
         (fun ev => ⟨ev.quote, ev.file, ev.chunk_id, ev.timestamp⟩)⟩ ∧
    (∀ g₁ g₂, VerifierGate.generate_answer question evidence "FACT_MODE" "unknown" g₁ =
       VerifierGate.generate_answer question evidence "FACT_MODE" "unknown" g₂) := by
  have hne : (VerifierGate.quoteOnlySel evidence.evidence).2 ≠ [] :=
    quoteOnlySel_ne_nil evidence.evidence h3
  have hmain : ∀ g, VerifierGate.generate_answer question evidence "FACT_MODE" "unknown" g =
      ⟨"From my data:\n" ++ String.intercalate "\n" (VerifierGate.quoteOnlySel evidence.evidence).2,
       "medium", "Entailment unclear, returning quote-only answer.",
       (evidence.evidence.filter
          (fun ev => (VerifierGate.quoteOnlySel evidence.evidence).1.contains ev.chunk_id)).map
         (fun ev => ⟨ev.quote, ev.file, ev.chunk_id, ev.timestamp⟩)⟩ := by
    intro g
    unfold VerifierGate.generate_answer
    rw [if_neg (by simp [h1])]
    rw [if_neg (by simpa [h2, List.length_eq_zero] using h3)]
    rw [if_neg (by decide)]
    simp only []
    have hq : (List.map (fun e => e.quote) evidence.evidence).isEmpty = false := by
      rcases hev : evidence.evidence with _ | ⟨e, es⟩
      · exact absurd hev h3
      · rfl
    have hent : VerifierGate.entailmentResult "unknown"
        (List.map (fun e => e.quote) evidence.evidence) = "unknown" := by
      unfold VerifierGate.entailmentResult
      rw [if_neg (by simp [hq])]
    rw [hent]
    rw [if_neg (by decide)]
    rw [if_pos (by decide)]
    rw [if_pos (by simpa using hne)]
  refine ⟨hne, quoteOnlyFold_len_le _ _ _ (by simp), quoteOnlyFold_seen_nodup _ _ _ (by simp),
    ?_, hmain genResult, fun g₁ g₂ => (hmain g₁).trans (hmain g₂).symm⟩
  intro line hl
  rcases quoteOnlyFold_lines_from evidence.evidence [] [] line hl with hmem | hfrom
  · simp at hmem
  · exact hfrom

/-- C6 witness: one evidence item, entailment oracle `unknown`; the
quote-only Verdict with that verbatim quote is returned. -/
theorem entailment_unknown_quote_only_witness :
    VerifierGate.generate_answer "what was decided"
        ⟨[⟨"we chose the smaller instance", "w1:msg:0", "data/slack.md", none⟩], true, some "raw"⟩
        "FACT_MODE" "unknown" (some "gen output") =
      ⟨"From my data:\n- we chose the smaller instance", "medium",
       "Entailment unclear, returning quote-only answer.",
       [⟨"we chose the smaller instance", "data/slack.md", "w1:msg:0", none⟩]⟩ :=
  (entailment_unknown_quote_only _ _ _ (by decide) (by decide) (by decide)).2.2.2.2.1

theorem select_bundle (top_k budget : Nat) (scored : List (ℚ × Chunk)) :
    Retrieval.totalLen (Retrieval.selectLoop top_k budget (Retrieval.sortDesc scored) 0 0) ≤
      budget ∧
    (Retrieval.selectLoop top_k budget (Retrieval.sortDesc scored) 0 0).length ≤ top_k ∧
    List.Pairwise (fun a b => b.score ≤ a.score)
      (Retrieval.selectLoop top_k budget (Retrieval.sortDesc scored) 0 0) ∧
    ∃ sorted : List (ℚ × Chunk),
      List.Pairwise (fun a b => b.1 ≤ a.1) sorted ∧
      Retrieval.selectLoop top_k budget (Retrieval.sortDesc scored) 0 0 =
        (sorted.take (Retrieval.selectLoop top_k budget (Retrieval.sortDesc scored) 0 0).length).map
          (fun p => ⟨p.2, p.1⟩) ∧
      ((Retrieval.selectLoop top_k budget (Retrieval.sortDesc scored) 0 0).length =
         sorted.length ∨
       top_k ≤ (Retrieval.selectLoop top_k budget (Retrieval.sortDesc scored) 0 0).length ∨
       budget <
         Retrieval.totalLen (Retrieval.selectLoop top_k budget (Retrieval.sortDesc scored) 0 0) +
         (sorted.getD (Retrieval.selectLoop top_k budget (Retrieval.sortDesc scored) 0 0).length
           (0, ⟨"", "", "", none⟩)).2.text.length) := by
  refine ⟨?_, ?_, ?_, Retrieval.sortDesc scored, sortDesc_pairwise scored,
    selectLoop_take top_k budget (Retrieval.sortDesc scored) 0 0, ?_⟩
  · have := selectLoop_budget top_k budget (Retrieval.sortDesc scored) 0 0 (Nat.zero_le _)
    omega
  · have := selectLoop_count top_k budget (Retrieval.sortDesc scored) 0 0 (Nat.zero_le _)
    omega
  · rw [selectLoop_take top_k budget (Retrieval.sortDesc scored) 0 0]
    rw [List.pairwise_map]
    exact (sortDesc_pairwise scored).sublist (List.take_sublist _ _)
  · have := selectLoop_stop top_k budget (Retrieval.sortDesc scored) 0 0
    omega

/-- C8: for every query, date range and character budget, the selected
chunk list of `retrieve` has summed text length within the budget and
at most `top_k` entries; moreover there is a descending-sorted scored
candidate list of which the selection is exactly the greedy prefix
(scores of the selection are non-increasing), and the loop stopped
either at the end of the candidates or at the first violated bound
(count reached `top_k`, or the very next chunk would overflow the
budget) - not after a full rescan. -/
theorem retrieve_budget_respected (env : Retrieval.Env) (query : String)
    (date_range : Option (Int × Int)) (max_context_chars top_k : Nat) :
    Retrieval.totalLen (Retrieval.retrieve env query date_range max_context_chars top_k).chunks ≤
      max_context_chars ∧
    (Retrieval.retrieve env query date_range max_context_chars top_k).chunks.length ≤ top_k ∧
    List.Pairwise (fun a b => b.score ≤ a.score)
      (Retrieval.retrieve env query date_range max_context_chars top_k).chunks ∧
    ∃ sorted : List (ℚ × Chunk),
      List.Pairwise (fun a b => b.1 ≤ a.1) sorted ∧
      (Retrieval.retrieve env query date_range max_context_chars top_k).chunks =
        (sorted.take
          (Retrieval.retrieve env query date_range max_context_chars top_k).chunks.length).map
          (fun p => ⟨p.2, p.1⟩) ∧
      ((Retrieval.retrieve env query date_range max_context_chars top_k).chunks.length =
         sorted.length ∨
       top_k ≤ (Retrieval.retrieve env query date_range max_context_chars top_k).chunks.length ∨
       max_context_chars <
         Retrieval.totalLen
           (Retrieval.retrieve env query date_range max_context_chars top_k).chunks +
         (sorted.getD
           (Retrieval.retrieve env query date_range max_context_chars top_k).chunks.length
           (0, ⟨"", "", "", none⟩)).2.text.length) := by
  unfold Retrieval.retrieve
  by_cases hq : env.qEmbOk = true
  · rw [if_neg (by simp [hq])]
    exact select_bundle top_k max_context_chars _
  · rw [if_pos (by simp [Bool.not_eq_true] at hq ⊢; exact hq)]
    exact ⟨by simp [Retrieval.totalLen], by simp, by simp,
      [], by simp, by simp, Or.inl (by simp)⟩

/-- C9: in the final citation list of a generated (non-blocked) answer,
every citation originates from an evidence item; its text is the
stripped quote for `identity.md` sources and the email-redacted
stripped quote otherwise, and it never still matches the
sensitive-information check (which exempts `identity.md`).  Conversely
a valid-quoted `identity.md` evidence item is never redacted nor
dropped: its citation is always present. -/
theorem citation_redaction_policy (question : String) (evidence : ExtractResult)
    (entOracle : String) (genResult : Option String) (answer_mode : String)
    (h1 : containsSensitiveInfo question "" = false)
    (h2 : evidence.has_evidence = true)
    (h3 : evidence.evidence ≠ [])
    (hmode : answer_mode = "SUMMARY_MODE" ∨ (answer_mode = "FACT_MODE" ∧ entOracle = "yes")) :
    (∀ cit ∈ (VerifierGate.generate_answer question evidence answer_mode entOracle
        genResult).citations,
       ∃ e ∈ evidence.evidence, cit.chunk_id = e.chunk_id ∧ cit.source = e.file ∧
         (if substrOf "identity.md" e.file = true then cit.text = pyStrip e.quote
          else cit.text = redactEmails (pyStrip e.quote)) ∧
         containsSensitiveInfo cit.text cit.source = false) ∧
    (∀ e ∈ evidence.evidence, substrOf "identity.md" e.file = true →
       VerifierGate.isValidQuote (pyStrip e.quote) = true →
       (⟨pyStrip e.quote, e.file, e.chunk_id, e.timestamp⟩ : Citation) ∈
         (VerifierGate.generate_answer question evidence answer_mode entOracle
           genResult).citations) := by
  have hq : (List.map (fun e => e.quote) evidence.evidence).isEmpty = false := by
    rcases hev : evidence.evidence with _ | ⟨e, es⟩
    · exact absurd hev h3
    · rfl
  have hred : ∃ boost, VerifierGate.generate_answer question evidence answer_mode entOracle
      genResult = VerifierGate.finalPhase evidence boost genResult := by
    rcases hmode with hs | ⟨hf, he⟩
    · subst hs
      refine ⟨some (if 2 ≤ ((evidence.evidence.map (fun e => e.chunk_id)).dedup).length
        then "high" else "medium"), ?_⟩
      unfold VerifierGate.generate_answer
      rw [if_neg (by simp [h1])]
      rw [if_neg (by simpa [h2, List.length_eq_zero] using h3)]
      rw [if_pos (by decide)]
      simp only []
      rw [if_neg ?hdedup]
      case hdedup =>
        have : (List.map (fun e => e.chunk_id) evidence.evidence).dedup ≠ [] := by
          simpa [List.dedup_eq_nil, List.map_eq_nil_iff] using h3
        simpa [List.length_eq_zero] using this
    · subst hf
      subst he
      refine ⟨none, ?_⟩
      unfold VerifierGate.generate_answer
      rw [if_neg (by simp [h1])]
      rw [if_neg (by simpa [h2, List.length_eq_zero] using h3)]
      rw [if_neg (by decide)]
      simp only []
      have hent : VerifierGate.entailmentResult "yes"
          (List.map (fun e => e.quote) evidence.evidence) = "yes" := by
        unfold VerifierGate.entailmentResult
        rw [if_neg (by simp [hq])]
      rw [hent]
      rw [if_neg (by decide)]
      rw [if_neg (by decide)]
  rcases hred with ⟨boost, heq⟩
  rw [heq]
  constructor
  · intro cit hcit
    unfold VerifierGate.finalPhase at hcit
    simp only [] at hcit
    split at hcit
    · simp at hcit
    · rcases List.mem_filterMap.mp hcit with ⟨e, hmem, hbc⟩
      obtain ⟨c1, c2, _, _, c5, c6⟩ := buildCitation_some e cit hbc
      refine ⟨e, hmem, c1, c2, ?_, c6⟩
      rcases c5 with ⟨hid, ht⟩ | ⟨hid, ht⟩
      · rw [if_pos hid]
        exact ht
      · rw [if_neg (by simp [hid])]
        exact ht
  · intro e hmem hid hval
    have hfi : ((evidence.evidence.map (fun x => x.file)).any
        (fun src => substrOf "identity.md" src)) = true := by
      rw [List.any_eq_true]
      exact ⟨e.file, List.mem_map_of_mem _ hmem, hid⟩
    unfold VerifierGate.finalPhase
    simp only []
    rw [if_neg (by simp [hfi])]
    exact buildCitations_identity_kept evidence.evidence e hmem hid hval

/-- C9 witness: an `identity.md` evidence item whose quote contains an
email address is kept verbatim (no redaction, no dropping) in the final
citation list of a generated answer. -/
theorem citation_redaction_policy_witness :
    (⟨"reach me at archit@example.com", "data/identity.md", "identity:profile", none⟩ : Citation) ∈
      (VerifierGate.generate_answer "where can people contact you"
        ⟨[⟨"reach me at archit@example.com", "identity:profile", "data/identity.md", none⟩],
          true, some "raw"⟩ "SUMMARY_MODE" "ignored"
        (some "People can reach me by email. Sources: identity:profile")).citations :=
  (citation_redaction_policy _ _ _ _ _ (by decide) (by decide) (by decide)
    (Or.inl rfl)).2
    ⟨"reach me at archit@example.com", "identity:profile", "data/identity.md", none⟩
    (by decide) (by decide) (by decide)

/-- C10: a question whose stripped lowercase form is one of the
greeting or help strings is answered by the corresponding fixed canned
Verdict with confidence `none` and no citations, and the result is
independent of every downstream oracle and collaborator (query
understanding, retrieval, extraction, gate and style are never
consulted). -/
theorem greeting_help_shortcut (question : String) (env₁ env₂ : DigitalTwin.Env)
    (h : (DigitalTwin.greetings.contains (lcase (pyStrip question)) ||
          DigitalTwin.help_intents.contains (lcase (pyStrip question))) = true) :
    (∃ v, DigitalTwin.answer env₁ question = some v ∧ v.confidence = "none" ∧
       v.citations = [] ∧ (v = DigitalTwin.greetingVerdict ∨ v = DigitalTwin.helpVerdict)) ∧
    DigitalTwin.answer env₁ question = DigitalTwin.answer env₂ question := by
  by_cases hg : DigitalTwin.greetings.contains (lcase (pyStrip question)) = true
  · have he : ∀ env : DigitalTwin.Env,
        DigitalTwin.answer env question = some DigitalTwin.greetingVerdict := by
      intro env
      unfold DigitalTwin.answer
      simp only []
      rw [if_pos hg]
    exact ⟨⟨DigitalTwin.greetingVerdict, he env₁, rfl, rfl, Or.inl rfl⟩,
      (he env₁).trans (he env₂).symm⟩
  · have hgf : DigitalTwin.greetings.contains (lcase (pyStrip question)) = false := by
      cases hc : DigitalTwin.greetings.contains (lcase (pyStrip question))
      · rfl
      · exact absurd hc hg
    have hh : DigitalTwin.help_intents.contains (lcase (pyStrip question)) = true := by
      rw [hgf] at h
      simpa using h
    have he : ∀ env : DigitalTwin.Env,
        DigitalTwin.answer env question = some DigitalTwin.helpVerdict := by
      intro env
      unfold DigitalTwin.answer
      simp only []
      rw [if_neg (by rw [hgf]; simp), if_pos hh]
    exact ⟨⟨DigitalTwin.helpVerdict, he env₁, rfl, rfl, Or.inr rfl⟩,
      (he env₁).trans (he env₂).symm⟩

/-- C10 witness: the question `"  Hello "` (stripped, lowercased to a
greeting) gets the canned greeting Verdict with a fully concrete
environment that would fail every downstream call. -/
theorem greeting_help_shortcut_witness :
    ∃ v, DigitalTwin.answer
        ⟨⟨⟨[]⟩, [], [], true, true, fun _ => 0⟩, fun _ => none, none, fun _ => .parseFail,
          "unknown", none, none, 6, 3000⟩ "  Hello " = some v ∧
      v.confidence = "none" ∧ v.citations = [] ∧
      (v = DigitalTwin.greetingVerdict ∨ v = DigitalTwin.helpVerdict) :=
  (greeting_help_shortcut "  Hello "
    ⟨⟨⟨[]⟩, [], [], true, true, fun _ => 0⟩, fun _ => none, none, fun _ => .parseFail,
      "unknown", none, none, 6, 3000⟩
    ⟨⟨⟨[]⟩, [], [], true, true, fun _ => 0⟩, fun _ => none, none, fun _ => .parseFail,
      "unknown", none, none, 6, 3000⟩ (by decide)).1

theorem gate_cases (question : String) (evidence : ExtractResult) (answer_mode entOracle : String)
    (genResult : Option String) :
    VerifierGate.generate_answer question evidence answer_mode entOracle genResult =
      ⟨"I cannot share sensitive information like credentials, passwords, or API keys.", "none",
       "Question blocked due to requesting sensitive information.", []⟩ ∨
    VerifierGate.generate_answer question evidence answer_mode entOracle genResult =
      ⟨"I do not see this in your data.", "none",
       "No supporting evidence found in the data.", []⟩ ∨
    VerifierGate.generate_answer question evidence answer_mode entOracle genResult =
      ⟨"I do not see this in your data.", "none", "No evidence found for summary.", []⟩ ∨
    VerifierGate.generate_answer question evidence answer_mode entOracle genResult =
      ⟨"I do not see this in your data.", "none",
       "Evidence does not support the question.", []⟩ ∨
    VerifierGate.generate_answer question evidence answer_mode entOracle genResult =
      ⟨"I do not see this in your data.", "none",
       "Cannot verify if evidence supports the question.", []⟩ ∨
    (VerifierGate.generate_answer question evidence answer_mode entOracle
      genResult).confidence = "medium" ∨
    ∃ boost, (∀ u, boost = some u → u ≠ "none") ∧
      VerifierGate.generate_answer question evidence answer_mode entOracle genResult =
        VerifierGate.finalPhase evidence boost genResult := by
  unfold VerifierGate.generate_answer
  split
  · exact Or.inl rfl
  · split
    · exact Or.inr (Or.inl rfl)
    · split
      · simp only []
        split
        · exact Or.inr (Or.inr (Or.inl rfl))
        · refine Or.inr (Or.inr (Or.inr (Or.inr (Or.inr (Or.inr ⟨_, ?_, rfl⟩)))))
          intro u hu
          cases hu
          split <;> decide
      · simp only []
        split
        · exact Or.inr (Or.inr (Or.inr (Or.inl rfl)))
        · split
          · split
            · exact Or.inr (Or.inr (Or.inr (Or.inr (Or.inr (Or.inl rfl)))))
            · exact Or.inr (Or.inr (Or.inr (Or.inr (Or.inl rfl))))
          · refine Or.inr (Or.inr (Or.inr (Or.inr (Or.inr (Or.inr ⟨none, ?_, rfl⟩)))))
            intro u hu
            cases hu

/-- C2 counterexample to the claim as stated: in fact mode with valid
evidence and entailment `yes`, a failed generation call yields the
refusal text and confidence `none`, yet the assembled citation list is
returned non-empty - so `confidence = none` does not imply empty
citations. -/
theorem confidence_none_counterexample :
    (VerifierGate.generate_answer "how long did cold start take"
        ⟨[⟨"cold start took about 6 minutes", "w1:msg:0", "data/slack.md", none⟩], true,
          some "raw"⟩ "FACT_MODE" "yes" none).confidence = "none" ∧
    (VerifierGate.generate_answer "how long did cold start take"
        ⟨[⟨"cold start took about 6 minutes", "w1:msg:0", "data/slack.md", none⟩], true,
          some "raw"⟩ "FACT_MODE" "yes" none).citations =
      [⟨"cold start took about 6 minutes", "data/slack.md", "w1:msg:0", none⟩] := by
  constructor
  · decide
  · decide

/-- C2 (amended): in every Verdict of `generate_answer`,
`confidence = "none"` implies the answer text is a refusal or block
phrase (it contains `do not see` or `cannot share`).  The claimed
biconditional with empty citations holds in every terminal refusal and
block branch but fails in the final generation path, where a
refusal-phrased generated answer keeps the assembled citation list
(see the counterexample); the converse also fails, since a surviving
answer can end with all its citations filtered out. -/
theorem confidence_none_refusal_amended (question : String) (evidence : ExtractResult)
    (answer_mode entOracle : String) (genResult : Option String)
    (h : (VerifierGate.generate_answer question evidence answer_mode entOracle
      genResult).confidence = "none") :
    (substrOf "do not see"
       (lcase (VerifierGate.generate_answer question evidence answer_mode entOracle
         genResult).answer) ||
     substrOf "cannot share"
       (lcase (VerifierGate.generate_answer question evidence answer_mode entOracle
         genResult).answer)) = true := by
  rcases gate_cases question evidence answer_mode entOracle genResult with
    hv | hv | hv | hv | hv | hv | ⟨boost, hb, hv⟩
  · rw [hv]
    decide
  · rw [hv]
    decide
  · rw [hv]
    decide
  · rw [hv]
    decide
  · rw [hv]
    decide
  · rw [hv] at h
    exact absurd h (by decide)
  · rw [hv] at h ⊢
    rcases finalPhase_cases evidence boost genResult hb with hfp | ⟨hfp, hiff⟩
    · rw [hfp] at h ⊢
      decide
    · have hsub := hiff.mp h
      rw [hfp]
      simp only []
      rw [lcase] at hsub ⊢
      rw [Bool.or_eq_true]
      exact Or.inl hsub

/-- C2 amended witness: the generation-failure Verdict has confidence
`none` and its answer indeed reads as a refusal. -/
theorem confidence_none_refusal_amended_witness :
    (substrOf "do not see"
       (lcase (VerifierGate.generate_answer "how long did cold start take"
         ⟨[⟨"cold start took about 6 minutes", "w1:msg:0", "data/slack.md", none⟩], true,
           some "raw"⟩ "FACT_MODE" "yes" none).answer) ||
     substrOf "cannot share"
       (lcase (VerifierGate.generate_answer "how long did cold start take"
         ⟨[⟨"cold start took about 6 minutes", "w1:msg:0", "data/slack.md", none⟩], true,
           some "raw"⟩ "FACT_MODE" "yes" none).answer)) = true :=
  confidence_none_refusal_amended _ _ _ _ _ (by decide)

/-- C7 counterexample to the claim as stated: in summary mode with
non-empty evidence from exactly one distinct chunk, a generated answer
that is not a refusal phrase can still trigger the post-generation
sensitive-content scan; the Verdict then has confidence `none`, not the
claimed `medium`. -/
theorem summary_confidence_counterexample :
    substrOf "do not see"
      (lcase (VerifierGate.gateGenerate (some "We rotated the password last week"))) = false ∧
    ((([⟨"rotated the keys on Friday", "w1:msg:0", "data/slack.md", none⟩] :
        List EvidenceItem).map (fun e => e.chunk_id)).dedup).length = 1 ∧
    (VerifierGate.generate_answer "what happened last week"
        ⟨[⟨"rotated the keys on Friday", "w1:msg:0", "data/slack.md", none⟩], true, some "raw"⟩
        "SUMMARY_MODE" "ignored" (some "We rotated the password last week")).confidence =
      "none" := by
  refine ⟨by decide, by decide, by decide⟩

/-- C7 (amended): in summary mode with a non-empty evidence set, if the
generated answer is not a refusal phrase and does not trigger the
post-generation sensitive-content block (which the claim as stated
overlooks), then confidence is `high` when the evidence cites at least
2 distinct chunk ids and `medium` when it cites exactly one; no
entailment check runs - the Verdict does not depend on the entailment
oracle. -/
theorem summary_confidence_amended (question : String) (evidence : ExtractResult)
    (entOracle : String) (genResult : Option String)
    (h1 : containsSensitiveInfo question "" = false)
    (h2 : evidence.has_evidence = true)
    (h3 : evidence.evidence ≠ [])
    (h4 : substrOf "do not see" (lcase (VerifierGate.gateGenerate genResult)) = false)
    (h5 : ((evidence.evidence.map (fun e => e.file)).any
             (fun src => substrOf "identity.md" src)) = true ∨
          containsSensitiveInfo (VerifierGate.gateGenerate genResult) "" = false) :
    (VerifierGate.generate_answer question evidence "SUMMARY_MODE" entOracle
        genResult).confidence =
      (if 2 ≤ ((evidence.evidence.map (fun e => e.chunk_id)).dedup).length
       then "high" else "medium") ∧
    (∀ e₁ e₂, VerifierGate.generate_answer question evidence "SUMMARY_MODE" e₁ genResult =
       VerifierGate.generate_answer question evidence "SUMMARY_MODE" e₂ genResult) := by
  have heq : ∀ ent, VerifierGate.generate_answer question evidence "SUMMARY_MODE" ent genResult =
      VerifierGate.finalPhase evidence
        (some (if 2 ≤ ((evidence.evidence.map (fun e => e.chunk_id)).dedup).length
          then "high" else "medium")) genResult := by
    intro ent
    unfold VerifierGate.generate_answer
    rw [if_neg (by simp [h1])]
    rw [if_neg (by simpa [h2, List.length_eq_zero] using h3)]
    rw [if_pos (by decide)]
    simp only []
    rw [if_neg ?hdedup]
    case hdedup =>
      have : (List.map (fun e => e.chunk_id) evidence.evidence).dedup ≠ [] := by
        simpa [List.dedup_eq_nil, List.map_eq_nil_iff] using h3
      simpa [List.length_eq_zero] using this
  refine ⟨?_, fun e₁ e₂ => (heq e₁).trans (heq e₂).symm⟩
  rw [heq entOracle]
  have hcond : ((!(evidence.evidence.map (fun e => e.file)).any
      (fun src => substrOf "identity.md" src)) &&
      containsSensitiveInfo (VerifierGate.gateGenerate genResult) "") = false := by
    rcases h5 with hfi | hs
    · rw [hfi]
      rfl
    · rw [hs]
      simp
  unfold VerifierGate.finalPhase
  simp only []
  rw [if_neg (by simp [hcond])]
  simp only [h4, Bool.false_eq_true, if_false]
  by_cases hlen : 2 ≤ ((evidence.evidence.map (fun e => e.chunk_id)).dedup).length
  · rw [if_pos hlen]
    rw [if_neg (by decide)]
  · rw [if_neg hlen]
    rw [if_neg (by decide)]

/-- C7 amended witness: one distinct source, harmless generated
answer, confidence `medium`. -/
theorem summary_confidence_amended_witness :
    (VerifierGate.generate_answer "what happened last week"
        ⟨[⟨"rotated the keys on Friday", "w1:msg:0", "data/slack.md", none⟩], true, some "raw"⟩
        "SUMMARY_MODE" "ignored" (some "We rotated the machines on Friday")).confidence =
      (if 2 ≤ ((([⟨"rotated the keys on Friday", "w1:msg:0", "data/slack.md", none⟩] :
          List EvidenceItem).map (fun e => e.chunk_id)).dedup).length
       then "high" else "medium") :=
  (summary_confidence_amended _ _ _ _ (by decide) (by decide) (by decide) (by decide)
    (Or.inr (by decide))).1

/-- C1 counterexample to the claim as stated: a quote validated as
verbatim by the extraction layer can contain an email address; the
gate's citation assembly then replaces it by `[redacted]`, and the
resulting citation text, whitespace-normalized, is no longer a
substring of the cited chunk's normalized text. -/
theorem verbatim_invariant_counterexample :
    EvidenceExtraction.extract
        [⟨⟨"notes:chunk:0", "data/notes.md", "Email alice@example.com for details", none⟩, 0⟩]
        (some "raw model output")
        (fun _ => .parsed (.jdict [("evidence", .jlist
          [.jdict [("chunk_index", .jint 0),
                   ("quote", .jstr "Email alice@example.com for details")]])]))
        "FACT_MODE" =
      some ⟨[⟨"Email alice@example.com for details", "notes:chunk:0", "data/notes.md", none⟩],
        true, some "raw model output"⟩ ∧
    (VerifierGate.generate_answer "how can people reach alice"
        ⟨[⟨"Email alice@example.com for details", "notes:chunk:0", "data/notes.md", none⟩],
          true, some "raw model output"⟩
        "FACT_MODE" "yes" (some "Email alice for details")).citations =
      [⟨"Email [redacted] for details", "data/notes.md", "notes:chunk:0", none⟩] ∧
    substrOf (normWs "Email [redacted] for details")
      (normWs "Email alice@example.com for details") = false := by
  refine ⟨by decide, by decide, by decide⟩

/-- C1 (amended): for evidence produced by the extraction layer, every
citation of every gate Verdict cites a retrieved chunk, and its text is
either itself a whitespace-normalized substring of that chunk's
normalized text, or the email-redaction of such a verbatim quote
(`[redacted]` substitution); the invariant as originally stated holds
whenever the quote contains no email-like substring, but redaction can
break it (see the counterexample). -/
theorem verbatim_up_to_redaction (chunks : List RetrievedChunk) (genR : Option String)
    (parseJson : String → ParseOutcome) (modeE : String) (er : ExtractResult)
    (hx : EvidenceExtraction.extract chunks genR parseJson modeE = some er)
    (question modeG entOracle : String) (gateGen : Option String) :
    ∀ cit, cit ∈ (VerifierGate.generate_answer question er modeG entOracle gateGen).citations →
      ∃ rc ∈ chunks, cit.chunk_id = rc.chunk.id ∧
        ∃ q, substrOf (normWs q) (normWs rc.chunk.text) = true ∧
          (cit.text = q ∨ cit.text = redactEmails q) := by
  intro cit hcit
  obtain ⟨e, hmem, h1, _h2, h3⟩ :=
    gate_citation_origin question er modeG entOracle gateGen cit hcit
  obtain ⟨rc, hrcmem, e1, _e2, _e3, e4, raw, hraw⟩ :=
    extract_evidence_sound chunks genR parseJson modeE er hx e hmem
  have hstrip : pyStrip e.quote = e.quote := by
    rw [hraw]
    exact pyStrip_idem raw
  refine ⟨rc, hrcmem, h1.trans e1, e.quote, e4, ?_⟩
  rcases h3 with ht | ht | ht
  · exact Or.inl ht
  · rw [hstrip] at ht
    exact Or.inl ht
  · rw [hstrip] at ht
    exact Or.inr ht

/-- C1 amended witness: the redacted citation of the counterexample
input is indeed the email-redaction of a verbatim quote of its cited
chunk. -/
theorem verbatim_up_to_redaction_witness :
    ∃ rc ∈ ([⟨⟨"notes:chunk:0", "data/notes.md", "Email alice@example.com for details", none⟩,
        0⟩] : List RetrievedChunk),
      (⟨"Email [redacted] for details", "data/notes.md", "notes:chunk:0", none⟩ :
        Citation).chunk_id = rc.chunk.id ∧
      ∃ q, substrOf (normWs q) (normWs rc.chunk.text) = true ∧
        ((⟨"Email [redacted] for details", "data/notes.md", "notes:chunk:0", none⟩ :
            Citation).text = q ∨
         (⟨"Email [redacted] for details", "data/notes.md", "notes:chunk:0", none⟩ :
            Citation).text = redactEmails q) :=
  verbatim_up_to_redaction
    [⟨⟨"notes:chunk:0", "data/notes.md", "Email alice@example.com for details", none⟩, 0⟩]
    (some "raw model output")
    (fun _ => .parsed (.jdict [("evidence", .jlist
      [.jdict [("chunk_index", .jint 0),
               ("quote", .jstr "Email alice@example.com for details")]])]))
    "FACT_MODE"
    ⟨[⟨"Email alice@example.com for details", "notes:chunk:0", "data/notes.md", none⟩],
      true, some "raw model output"⟩
    (by decide) "how can people reach alice" "FACT_MODE" "yes" (some "Email alice for details")
    ⟨"Email [redacted] for details", "data/notes.md", "notes:chunk:0", none⟩ (by decide)
